import Mathlib

/-!
Verification development for the DocumentParserViewer repository.

The Python sources (`src/utils.py`, `src/parser.py`, `src/visualizer.py`,
`src/interactive_ui.py`) are shallowly embedded below:

* element dictionaries `{'type', 'text', 'coordinates'}` become the
  structure `Element`; the parse result of `parse_single_tiff` becomes
  `FileData`;
* pixel coordinates (Python floats) are modelled as exact rationals, the
  signed pixel adjustments and image dimensions (Python ints) as integers;
* Python's in-place subscript assignment `elements[i]['type'] = v` becomes
  the functional update `modify_at`; operations that in Python raise an
  exception (`min`/`max` of an empty sequence, indexing a missing element,
  a missing folder) return `Option`/`Except` values instead;
* `pathlib.Path.glob` on a POSIX filesystem is modelled by
  `glob_suffix_match` over the folder's entry names (case-sensitive match;
  dot-initial names are matched too, since `pathlib.Path.glob` does not
  apply the `glob` module's hidden-file rule), and `sorted` on paths
  sharing one parent folder by `List.insertionSort` with the lexicographic
  order on strings.
-/

/-- One extracted element as built by `parse_single_tiff` in `src/parser.py`:
a category label, the extracted text, and an optional bounding polygon. -/
structure Element where
  type : String
  text : String
  coordinates : Option (List (ℚ × ℚ))
deriving DecidableEq

/-- The parse result of one document (`parse_single_tiff` in `src/parser.py`). -/
structure FileData where
  filename : String
  filepath : String
  elements : List Element
  full_text : String
deriving DecidableEq

/-- The per-document edit-tracking record of `src/utils.py`:
`{'original', 'current', 'edited_indices'}`. -/
structure EditTracking where
  original : List Element
  current : List Element
  edited_indices : Finset ℕ
deriving DecidableEq

/-- `initialize_edit_tracking` from `src/utils.py`.  The Python code deep-copies
`file_data['elements']` into both fields, so that later in-place edits of
`current` alias neither `original` nor the parse result; in this pure value
model a deep copy is the value itself. -/
def initialize_edit_tracking (file_data : FileData) : EditTracking :=
  { original := file_data.elements
    current := file_data.elements
    edited_indices := ∅ }

/-- Python's in-place `l[i] = f l[i]` on a list, as a functional update;
indices past the end leave the list unchanged (the callers below only reach
it after a bounds guard). -/
def modify_at {α : Type} : List α → ℕ → (α → α) → List α
  | [], _, _ => []
  | x :: xs, 0, f => f x :: xs
  | x :: xs, n + 1, f => x :: modify_at xs n f

/-- `update_element_type` from `src/utils.py`: inside the bounds guard
`0 <= element_index < len(elements)` it assigns
`elements[element_index]['type'] = new_type`, otherwise it returns the list
unchanged.  The index is an `ℤ` because Python callers may pass any int. -/
def update_element_type (elements : List Element) (element_index : ℤ)
    (new_type : String) : List Element :=
  if 0 ≤ element_index ∧ element_index < (elements.length : ℤ) then
    modify_at elements element_index.toNat (fun e => { e with type := new_type })
  else elements

/-- `replace_element_with_reparsed` from `src/utils.py`: same bounds guard,
assigns `elements[element_index]['text'] = new_text`. -/
def replace_element_with_reparsed (elements : List Element) (element_index : ℤ)
    (new_text : String) : List Element :=
  if 0 ≤ element_index ∧ element_index < (elements.length : ℤ) then
    modify_at elements element_index.toNat (fun e => { e with text := new_text })
  else elements

/-- `adjust_coordinates` from `src/utils.py`.  `min(xs)`/`max(xs)` raise on an
empty sequence, hence the `Option`; on a non-empty list the code computes
`new_min_x = max(0, min_x - left_adjust)`, `new_max_x = min(image_width,
max_x + right_adjust)` (and likewise for y) and returns the four corners
top-left, top-right, bottom-right, bottom-left. -/
def adjust_coordinates (coordinates : List (ℚ × ℚ))
    (left_adjust right_adjust top_adjust bottom_adjust : ℤ)
    (image_width image_height : ℤ) : Option (List (ℚ × ℚ)) :=
  let xs := coordinates.map Prod.fst
  let ys := coordinates.map Prod.snd
  match xs.min?, xs.max?, ys.min?, ys.max? with
  | some min_x, some max_x, some min_y, some max_y =>
    let new_min_x : ℚ := max 0 (min_x - (left_adjust : ℚ))
    let new_max_x : ℚ := min (image_width : ℚ) (max_x + (right_adjust : ℚ))
    let new_min_y : ℚ := max 0 (min_y - (top_adjust : ℚ))
    let new_max_y : ℚ := min (image_height : ℚ) (max_y + (bottom_adjust : ℚ))
    some [(new_min_x, new_min_y), (new_max_x, new_min_y),
          (new_max_x, new_max_y), (new_min_x, new_max_y)]
  | _, _, _, _ => none

/-- Store-passing embedding of `adjust_coordinates`: the second component is
the contents of the caller's `coordinates` list after the call returns.  The
Python body only reads the argument (two comprehensions) and builds a fresh
list of four fresh tuples, so no statement of the body writes to the store. -/
def adjust_coordinates_run (coordinates : List (ℚ × ℚ))
    (left_adjust right_adjust top_adjust bottom_adjust : ℤ)
    (image_width image_height : ℤ) :
    Option (List (ℚ × ℚ)) × List (ℚ × ℚ) :=
  let store := coordinates
  let xs := store.map Prod.fst
  let ys := store.map Prod.snd
  match xs.min?, xs.max?, ys.min?, ys.max? with
  | some min_x, some max_x, some min_y, some max_y =>
    let new_min_x : ℚ := max 0 (min_x - (left_adjust : ℚ))
    let new_max_x : ℚ := min (image_width : ℚ) (max_x + (right_adjust : ℚ))
    let new_min_y : ℚ := max 0 (min_y - (top_adjust : ℚ))
    let new_max_y : ℚ := min (image_height : ℚ) (max_y + (bottom_adjust : ℚ))
    (some [(new_min_x, new_min_y), (new_max_x, new_min_y),
           (new_max_x, new_max_y), (new_min_x, new_max_y)], store)
  | _, _, _, _ => (none, store)

/-- Python's `int()` on a real value: truncation toward zero. -/
def py_int (q : ℚ) : ℤ := if 0 ≤ q then ⌊q⌋ else ⌈q⌉

/-- `get_bounding_box_size` from `src/utils.py`: `int(max(xs) - min(xs))` and
`int(max(ys) - min(ys))`; `Option` for the empty-sequence `min`/`max` error. -/
def get_bounding_box_size (coordinates : List (ℚ × ℚ)) : Option (ℤ × ℤ) :=
  let xs := coordinates.map Prod.fst
  let ys := coordinates.map Prod.snd
  match xs.min?, xs.max?, ys.min?, ys.max? with
  | some min_x, some max_x, some min_y, some max_y =>
    some (py_int (max_x - min_x), py_int (max_y - min_y))
  | _, _, _, _ => none

/-- The `changes` list that `get_edit_summary` builds for one edited index:
a type-change entry `"Type: old → new"` and/or a `"Text modified"` flag. -/
def elem_changes (original current : Element) : List String :=
  (if original.type ≠ current.type then
    ["Type: " ++ original.type ++ " → " ++ current.type]
  else []) ++
  (if original.text ≠ current.text then ["Text modified"] else [])

/-- The `summary_parts` accumulation loop of `get_edit_summary`, over the
sorted edited indices; `none` models the `IndexError` Python would raise on
an index outside `original`/`current` (unreachable through the UI). -/
def summary_parts (r : EditTracking) : List ℕ → Option (List String)
  | [] => some []
  | idx :: rest =>
    match r.original.get? idx, r.current.get? idx with
    | some o, some c =>
      (summary_parts r rest).map (fun ps =>
        (if elem_changes o c ≠ [] then
          ["Element " ++ toString (idx + 1) ++ ": " ++
            String.intercalate ", " (elem_changes o c)]
        else []) ++ ps)
    | _, _ => none

/-- `get_edit_summary` from `src/utils.py`: the sentinel `"No edits made"` when
no index was edited, else the summary lines joined with newlines. -/
def get_edit_summary (edit_tracking : EditTracking) : Option String :=
  if edit_tracking.edited_indices = ∅ then some "No edits made"
  else
    (summary_parts edit_tracking
        (edit_tracking.edited_indices.sort (· ≤ ·))).map
      (String.intercalate "\n")

/-- One user edit as wired up in `main` of `src/interactive_ui.py`:
the relabel button runs `update_element_type` and adds the 0-based index to
`edited_indices` (lines 195-204); the re-parse button runs
`replace_element_with_reparsed`, overwrites `current[idx]['coordinates']`
with the adjusted box and adds the index (lines 294-308). -/
inductive EditOp : Type
  | update_type (idx : ℕ) (new_type : String)
  | reparse_region (idx : ℕ) (new_text : String)
      (adjusted_coords : List (ℚ × ℚ))
deriving DecidableEq

/-- Apply one edit to the session's edit-tracking record, exactly as the two
button handlers in `src/interactive_ui.py` do. -/
def apply_edit_op (r : EditTracking) : EditOp → EditTracking
  | .update_type idx new_type =>
    { r with
        current := update_element_type r.current (idx : ℤ) new_type
        edited_indices := insert idx r.edited_indices }
  | .reparse_region idx new_text adjusted_coords =>
    { r with
        current :=
          modify_at (replace_element_with_reparsed r.current (idx : ℤ) new_text)
            idx (fun e => { e with coordinates := some adjusted_coords })
        edited_indices := insert idx r.edited_indices }

/-- A finite interaction sequence: the edits applied one after the other. -/
def apply_edit_ops (r : EditTracking) : List EditOp → EditTracking
  | [] => r
  | op :: ops => apply_edit_ops (apply_edit_op r op) ops

/-- The separator line `"-" * 50` of `create_side_by_side_view`. -/
def sep_line : String := String.mk (List.replicate 50 '-')

/-- The per-element header of the formatted text: `"[n] {type}"` when numbers
are shown, else `"{type}"`. -/
def sbs_header (show_numbers : Bool) (idx : ℕ) (e : Element) : String :=
  if show_numbers then "[" ++ toString idx ++ "] " ++ e.type else e.type

/-- The `text_parts` loop of `create_side_by_side_view` in `src/visualizer.py`:
`for idx, element in enumerate(elements, 1)` appends the header, the element's
text and the separator line, for every element (coordinates are not
consulted). -/
def side_text_loop (show_numbers : Bool) :
    ℕ → List Element → List String → List String
  | _, [], text_parts => text_parts
  | idx, e :: es, text_parts =>
    side_text_loop show_numbers (idx + 1) es
      (text_parts ++ [sbs_header show_numbers idx e, e.text, sep_line])

/-- The formatted text returned by `create_side_by_side_view`:
`"\n".join(text_parts)`. -/
def create_side_by_side_text (show_numbers : Bool) (elements : List Element) :
    String :=
  String.intercalate "\n" (side_text_loop show_numbers 1 elements [])

/-- The drawing loop of `draw_bounding_boxes` in `src/visualizer.py`:
`for idx, element in enumerate(elements, 1)` skips (`continue`) every element
whose coordinates are `None` and draws a box for each remaining one; this
function returns the `(ordinal, element)` pairs that get drawn. -/
def drawn_boxes : ℕ → List Element → List (ℕ × Element)
  | _, [] => []
  | idx, e :: es =>
    match e.coordinates with
    | none => drawn_boxes (idx + 1) es
    | some _ => (idx, e) :: drawn_boxes (idx + 1) es

/-- One `folder.glob('*.<suffix>')` pattern of `scan_data_folder`, on a POSIX
filesystem: case-sensitive, the `*` matches any (possibly empty) run of
characters of an entry name, so the pattern matches exactly the names ending
in the literal suffix.  Dot-initial names are matched too:
`pathlib.Path.glob` does not apply the `glob` module's hidden-file rule. -/
def glob_suffix_match (suffix : List Char) (name : String) : Bool :=
  suffix.isSuffixOf name.data

/-- `scan_data_folder` from `src/parser.py`.  The folder is given as `none`
when it does not exist (then the code raises `FileNotFoundError`) or as the
list of its entry names; the code collects the four glob patterns `*.tiff`,
`*.tif`, `*.TIFF`, `*.TIF` in that order and returns the matches sorted. -/
def scan_data_folder (folder_path : String) (folder : Option (List String)) :
    Except String (List String) :=
  match folder with
  | none => .error ("Folder not found: " ++ folder_path)
  | some entries =>
    let tiff_files :=
      entries.filter (glob_suffix_match ['.', 't', 'i', 'f', 'f']) ++
      entries.filter (glob_suffix_match ['.', 't', 'i', 'f']) ++
      entries.filter (glob_suffix_match ['.', 'T', 'I', 'F', 'F']) ++
      entries.filter (glob_suffix_match ['.', 'T', 'I', 'F'])
    .ok (tiff_files.insertionSort (· ≤ ·))

/-- Formalisation of the spec's words for claim C8, to be compared with the
source's `scan_data_folder`: a file name "whose extension is `.tiff` or
`.tif` matched case-insensitively". -/
def spec_tiff_ext_ci (name : String) : Bool :=
  let lower := name.data.map Char.toLower
  ['.', 't', 'i', 'f', 'f'].isSuffixOf lower ||
    ['.', 't', 'i', 'f'].isSuffixOf lower

/-! ### Helper lemmas (shared; none of these is a claim's theorem) -/

theorem min?_spec {α : Type} [LinearOrder α] {xs : List α} {a : α}
    (h : xs.min? = some a) : a ∈ xs ∧ ∀ b ∈ xs, a ≤ b := by
  haveI : Std.Antisymm ((· ≤ ·) : α → α → Prop) := ⟨fun h1 h2 => le_antisymm h1 h2⟩
  exact (List.min?_eq_some_iff (fun a => le_refl a) (fun a b => min_choice a b)
    (fun a b c => le_min_iff)).mp h

theorem max?_spec {α : Type} [LinearOrder α] {xs : List α} {a : α}
    (h : xs.max? = some a) : a ∈ xs ∧ ∀ b ∈ xs, b ≤ a := by
  haveI : Std.Antisymm ((· ≤ ·) : α → α → Prop) := ⟨fun h1 h2 => le_antisymm h1 h2⟩
  exact (List.max?_eq_some_iff (fun a => le_refl a) (fun a b => max_choice a b)
    (fun a b c => max_le_iff)).mp h

theorem min?_xyyx {α : Type} [LinearOrder α] (a b : α) :
    ([a, b, b, a] : List α).min? = some (min a b) := by
  simp [List.min?, List.foldl, min_assoc, min_self, min_comm, min_left_comm]

theorem max?_xyyx {α : Type} [LinearOrder α] (a b : α) :
    ([a, b, b, a] : List α).max? = some (max a b) := by
  simp [List.max?, List.foldl, max_assoc, max_self, max_comm, max_left_comm]

theorem min?_xxyy {α : Type} [LinearOrder α] (a b : α) :
    ([a, a, b, b] : List α).min? = some (min a b) := by
  simp [List.min?, List.foldl, min_assoc, min_self, min_comm, min_left_comm]

theorem max?_xxyy {α : Type} [LinearOrder α] (a b : α) :
    ([a, a, b, b] : List α).max? = some (max a b) := by
  simp [List.max?, List.foldl, max_assoc, max_self, max_comm, max_left_comm]

theorem py_int_nonneg {q : ℚ} (h : 0 ≤ q) : 0 ≤ py_int q := by
  unfold py_int
  rw [if_pos h]
  exact Int.floor_nonneg.mpr h

/-! ### C1 -/

/-- C1 counterexample: the code clamps each bound on one side only, so an
over-contracting left adjustment (here `-2000`, a value the UI allows) pushes
the new left edge to `x = 2100`, outside `[0, imageWidth] = [0, 400]`, and the
result differs from the spec's two-sided clamp `clamp(minX - leftAdjust, 0,
imageWidth) = 400`. -/
theorem adjust_coordinates_clamp_counterexample :
    adjust_coordinates [((100 : ℚ), 100)] (-2000) 0 0 0 400 300 =
      some [(2100, 100), (100, 100), (100, 100), (2100, 100)] ∧
    ¬ ((2100 : ℚ) ≤ 400) ∧
    (2100 : ℚ) ≠ min 400 (max 0 (100 - (-2000))) := by
  refine ⟨?_, by norm_num, by norm_num⟩
  norm_num [adjust_coordinates, List.min?, List.max?]

/-- C1 (amended): `adjust_coordinates` applies one-sided clamps — the min
bounds are clamped below at `0`, the max bounds above at the image dimension —
and consequently every point of the result lies in `[0, imageWidth] ×
[0, imageHeight]` provided additionally that no adjusted bound over-contracts
past the far edge of the image (`minX - leftAdjust ≤ imageWidth`,
`0 ≤ maxX + rightAdjust`, and likewise vertically). -/
theorem adjust_coordinates_one_sided_clamp
    (coordinates : List (ℚ × ℚ))
    (left_adjust right_adjust top_adjust bottom_adjust : ℤ)
    (image_width image_height : ℤ) (min_x max_x min_y max_y : ℚ)
    (hminx : (coordinates.map Prod.fst).min? = some min_x)
    (hmaxx : (coordinates.map Prod.fst).max? = some max_x)
    (hminy : (coordinates.map Prod.snd).min? = some min_y)
    (hmaxy : (coordinates.map Prod.snd).max? = some max_y) :
    adjust_coordinates coordinates left_adjust right_adjust top_adjust
        bottom_adjust image_width image_height =
      some [(max 0 (min_x - (left_adjust : ℚ)), max 0 (min_y - (top_adjust : ℚ))),
            (min (image_width : ℚ) (max_x + (right_adjust : ℚ)),
              max 0 (min_y - (top_adjust : ℚ))),
            (min (image_width : ℚ) (max_x + (right_adjust : ℚ)),
              min (image_height : ℚ) (max_y + (bottom_adjust : ℚ))),
            (max 0 (min_x - (left_adjust : ℚ)),
              min (image_height : ℚ) (max_y + (bottom_adjust : ℚ)))] ∧
    (0 < image_width → 0 < image_height →
      min_x - (left_adjust : ℚ) ≤ (image_width : ℚ) →
      0 ≤ max_x + (right_adjust : ℚ) →
      min_y - (top_adjust : ℚ) ≤ (image_height : ℚ) →
      0 ≤ max_y + (bottom_adjust : ℚ) →
      ∀ res, adjust_coordinates coordinates left_adjust right_adjust top_adjust
          bottom_adjust image_width image_height = some res →
        ∀ p ∈ res, 0 ≤ p.1 ∧ p.1 ≤ (image_width : ℚ) ∧
          0 ≤ p.2 ∧ p.2 ≤ (image_height : ℚ)) := by
  have heq : adjust_coordinates coordinates left_adjust right_adjust top_adjust
      bottom_adjust image_width image_height =
      some [(max 0 (min_x - (left_adjust : ℚ)), max 0 (min_y - (top_adjust : ℚ))),
            (min (image_width : ℚ) (max_x + (right_adjust : ℚ)),
              max 0 (min_y - (top_adjust : ℚ))),
            (min (image_width : ℚ) (max_x + (right_adjust : ℚ)),
              min (image_height : ℚ) (max_y + (bottom_adjust : ℚ))),
            (max 0 (min_x - (left_adjust : ℚ)),
              min (image_height : ℚ) (max_y + (bottom_adjust : ℚ)))] := by
    simp only [adjust_coordinates]
    rw [hminx, hmaxx, hminy, hmaxy]
  refine ⟨heq, ?_⟩
  intro hW hH h1 h2 h3 h4 res hres p hp
  rw [heq] at hres
  have hres' := Option.some.inj hres
  subst hres'
  have hW' : (0 : ℚ) ≤ (image_width : ℚ) := by exact_mod_cast hW.le
  have hH' : (0 : ℚ) ≤ (image_height : ℚ) := by exact_mod_cast hH.le
  have hx1 : (0 : ℚ) ≤ max 0 (min_x - (left_adjust : ℚ)) := le_max_left _ _
  have hx2 : max 0 (min_x - (left_adjust : ℚ)) ≤ (image_width : ℚ) := max_le hW' h1
  have hx3 : (0 : ℚ) ≤ min (image_width : ℚ) (max_x + (right_adjust : ℚ)) :=
    le_min hW' h2
  have hx4 : min (image_width : ℚ) (max_x + (right_adjust : ℚ)) ≤ (image_width : ℚ) :=
    min_le_left _ _
  have hy1 : (0 : ℚ) ≤ max 0 (min_y - (top_adjust : ℚ)) := le_max_left _ _
  have hy2 : max 0 (min_y - (top_adjust : ℚ)) ≤ (image_height : ℚ) := max_le hH' h3
  have hy3 : (0 : ℚ) ≤ min (image_height : ℚ) (max_y + (bottom_adjust : ℚ)) :=
    le_min hH' h4
  have hy4 : min (image_height : ℚ) (max_y + (bottom_adjust : ℚ)) ≤ (image_height : ℚ) :=
    min_le_left _ _
  simp only [List.mem_cons, List.not_mem_nil, or_false] at hp
  rcases hp with rfl | rfl | rfl | rfl <;>
    exact ⟨by assumption, by assumption, by assumption, by assumption⟩

/-- Witness for `adjust_coordinates_one_sided_clamp`, at the spec's §8
scenario box `[(100,100),(300,100),(300,200),(100,200)]` in a 400×300 image
with adjustments `(10, 10, 0, 0)`. -/
theorem adjust_coordinates_one_sided_clamp_witness :
    adjust_coordinates [((100 : ℚ), 100), (300, 100), (300, 200), (100, 200)]
        10 10 0 0 400 300 =
      some [(max 0 (100 - ((10 : ℤ) : ℚ)), max 0 (100 - ((0 : ℤ) : ℚ))),
            (min ((400 : ℤ) : ℚ) (300 + ((10 : ℤ) : ℚ)), max 0 (100 - ((0 : ℤ) : ℚ))),
            (min ((400 : ℤ) : ℚ) (300 + ((10 : ℤ) : ℚ)),
              min ((300 : ℤ) : ℚ) (200 + ((0 : ℤ) : ℚ))),
            (max 0 (100 - ((10 : ℤ) : ℚ)), min ((300 : ℤ) : ℚ) (200 + ((0 : ℤ) : ℚ)))] := by
  have h := adjust_coordinates_one_sided_clamp
    [((100 : ℚ), 100), (300, 100), (300, 200), (100, 200)] 10 10 0 0 400 300
    100 300 100 200
    (by norm_num [List.min?, List.foldl]) (by norm_num [List.max?, List.foldl])
    (by norm_num [List.min?, List.foldl]) (by norm_num [List.max?, List.foldl])
  exact h.1

/-! ### C5 -/

/-- C5 counterexample: with all adjustments zero, a polygon lying outside the
image (here the single point `(-5, 10)`) does not keep its bounding box: the
result's x-range has maximum `0`, not `-5`. -/
theorem adjust_coordinates_zero_bbox_counterexample :
    adjust_coordinates [((-5 : ℚ), 10)] 0 0 0 0 400 300 =
      some [(0, 10), (-5, 10), (-5, 10), (0, 10)] ∧
    ([((-5 : ℚ), 10)].map Prod.fst).max? = some (-5) ∧
    ([(0, 10), ((-5 : ℚ), 10), (-5, 10), (0, 10)].map Prod.fst).max? = some 0 ∧
    (0 : ℚ) ≠ -5 := by
  refine ⟨?_, by norm_num [List.max?], ?_, by norm_num⟩
  · norm_num [adjust_coordinates, List.min?, List.max?]
  · norm_num [List.max?, List.foldl, max_def]

/-- C5 (amended): for a non-empty polygon whose bounding box already lies
inside the image (`0 ≤ minX`, `maxX ≤ imageWidth`, `0 ≤ minY`,
`maxY ≤ imageHeight`), `adjust_coordinates` with all four adjustments zero
returns a rectangle with exactly the same axis-aligned bounding box. -/
theorem adjust_coordinates_zero_adjust_bbox
    (coordinates : List (ℚ × ℚ)) (image_width image_height : ℤ)
    (min_x max_x min_y max_y : ℚ)
    (hminx : (coordinates.map Prod.fst).min? = some min_x)
    (hmaxx : (coordinates.map Prod.fst).max? = some max_x)
    (hminy : (coordinates.map Prod.snd).min? = some min_y)
    (hmaxy : (coordinates.map Prod.snd).max? = some max_y)
    (h0x : 0 ≤ min_x) (hxW : max_x ≤ (image_width : ℚ))
    (h0y : 0 ≤ min_y) (hyH : max_y ≤ (image_height : ℚ)) :
    ∃ res, adjust_coordinates coordinates 0 0 0 0 image_width image_height =
        some res ∧
      (res.map Prod.fst).min? = some min_x ∧
      (res.map Prod.fst).max? = some max_x ∧
      (res.map Prod.snd).min? = some min_y ∧
      (res.map Prod.snd).max? = some max_y := by
  have hxx : min_x ≤ max_x := (min?_spec hminx).2 _ (max?_spec hmaxx).1
  have hyy : min_y ≤ max_y := (min?_spec hminy).2 _ (max?_spec hmaxy).1
  have hres : adjust_coordinates coordinates 0 0 0 0 image_width image_height =
      some [(min_x, min_y), (max_x, min_y), (max_x, max_y), (min_x, max_y)] := by
    simp only [adjust_coordinates]
    rw [hminx, hmaxx, hminy, hmaxy]
    norm_num [max_eq_right h0x, min_eq_right hxW, max_eq_right h0y,
      min_eq_right hyH]
  refine ⟨_, hres, ?_, ?_, ?_, ?_⟩
  · simpa [min?_xyyx] using congrArg some (min_eq_left hxx)
  · simpa [max?_xyyx] using congrArg some (max_eq_right hxx)
  · simpa [min?_xxyy] using congrArg some (min_eq_left hyy)
  · simpa [max?_xxyy] using congrArg some (max_eq_right hyy)

/-- Witness for `adjust_coordinates_zero_adjust_bbox` at the single point
`(100, 100)` inside a 400×300 image. -/
theorem adjust_coordinates_zero_adjust_bbox_witness :
    ∃ res, adjust_coordinates [((100 : ℚ), 100)] 0 0 0 0 400 300 = some res ∧
      (res.map Prod.fst).min? = some 100 ∧
      (res.map Prod.fst).max? = some 100 ∧
      (res.map Prod.snd).min? = some 100 ∧
      (res.map Prod.snd).max? = some 100 :=
  adjust_coordinates_zero_adjust_bbox [((100 : ℚ), 100)] 400 300 100 100 100 100
    rfl rfl rfl rfl (by norm_num) (by norm_num) (by norm_num) (by norm_num)

/-- `get_bounding_box_size` of an axis-aligned rectangle given as its four
corners (the shape `adjust_coordinates` returns). -/
theorem get_bounding_box_size_quad (a b c d : ℚ) :
    get_bounding_box_size [(a, c), (b, c), (b, d), (a, d)] =
      some (py_int (max a b - min a b), py_int (max c d - min c d)) := by
  simp only [get_bounding_box_size]
  have h1 : [(a, c), (b, c), (b, d), (a, d)].map Prod.fst = [a, b, b, a] := rfl
  have h2 : [(a, c), (b, c), (b, d), (a, d)].map Prod.snd = [c, c, d, d] := rfl
  rw [h1, h2, min?_xyyx, max?_xyyx, min?_xxyy, max?_xxyy]

/-! ### C6 -/

/-- C6: on any non-empty coordinate list, any adjustments and positive image
dimensions, `get_bounding_box_size` of the adjusted rectangle is defined and
both its width and its height are non-negative integers. -/
theorem get_bounding_box_size_adjust_nonneg
    (coordinates : List (ℚ × ℚ)) (hne : coordinates ≠ [])
    (left_adjust right_adjust top_adjust bottom_adjust : ℤ)
    (image_width image_height : ℤ)
    (_hW : 0 < image_width) (_hH : 0 < image_height) :
    ∃ res w h, adjust_coordinates coordinates left_adjust right_adjust
        top_adjust bottom_adjust image_width image_height = some res ∧
      get_bounding_box_size res = some (w, h) ∧ 0 ≤ w ∧ 0 ≤ h := by
  obtain ⟨mx, hmx⟩ : ∃ v, (coordinates.map Prod.fst).min? = some v := by
    cases coordinates with
    | nil => exact absurd rfl hne
    | cons p rest => exact ⟨_, rfl⟩
  obtain ⟨Mx, hMx⟩ : ∃ v, (coordinates.map Prod.fst).max? = some v := by
    cases coordinates with
    | nil => exact absurd rfl hne
    | cons p rest => exact ⟨_, rfl⟩
  obtain ⟨my, hmy⟩ : ∃ v, (coordinates.map Prod.snd).min? = some v := by
    cases coordinates with
    | nil => exact absurd rfl hne
    | cons p rest => exact ⟨_, rfl⟩
  obtain ⟨My, hMy⟩ : ∃ v, (coordinates.map Prod.snd).max? = some v := by
    cases coordinates with
    | nil => exact absurd rfl hne
    | cons p rest => exact ⟨_, rfl⟩
  have hres : adjust_coordinates coordinates left_adjust right_adjust top_adjust
      bottom_adjust image_width image_height =
      some [(max 0 (mx - (left_adjust : ℚ)), max 0 (my - (top_adjust : ℚ))),
            (min (image_width : ℚ) (Mx + (right_adjust : ℚ)),
              max 0 (my - (top_adjust : ℚ))),
            (min (image_width : ℚ) (Mx + (right_adjust : ℚ)),
              min (image_height : ℚ) (My + (bottom_adjust : ℚ))),
            (max 0 (mx - (left_adjust : ℚ)),
              min (image_height : ℚ) (My + (bottom_adjust : ℚ)))] := by
    simp only [adjust_coordinates]
    rw [hmx, hMx, hmy, hMy]
  exact ⟨_, _, _, hres, get_bounding_box_size_quad _ _ _ _,
    py_int_nonneg (sub_nonneg.mpr min_le_max),
    py_int_nonneg (sub_nonneg.mpr min_le_max)⟩

/-- Witness for `get_bounding_box_size_adjust_nonneg` at the single point
`(100, 100)`, adjustments `(10, 10, 0, 0)`, in a 400×300 image. -/
theorem get_bounding_box_size_adjust_nonneg_witness :
    ∃ res w h, adjust_coordinates [((100 : ℚ), 100)] 10 10 0 0 400 300 =
        some res ∧
      get_bounding_box_size res = some (w, h) ∧ 0 ≤ w ∧ 0 ≤ h :=
  get_bounding_box_size_adjust_nonneg [((100 : ℚ), 100)] (List.cons_ne_nil _ _)
    10 10 0 0 400 300 (by norm_num) (by norm_num)

/-! ### C2 and C3 -/

theorem apply_edit_op_original (r : EditTracking) (op : EditOp) :
    (apply_edit_op r op).original = r.original := by
  cases op <;> rfl

theorem apply_edit_ops_original (r : EditTracking) (ops : List EditOp) :
    (apply_edit_ops r ops).original = r.original := by
  induction ops generalizing r with
  | nil => rfl
  | cons op ops ih =>
    calc (apply_edit_ops (apply_edit_op r op) ops).original
        = (apply_edit_op r op).original := ih _
      _ = r.original := apply_edit_op_original r op

theorem apply_edit_op_edited_subset (r : EditTracking) (op : EditOp) :
    r.edited_indices ⊆ (apply_edit_op r op).edited_indices := by
  cases op <;> exact Finset.subset_insert _ _

theorem apply_edit_ops_edited_subset (r : EditTracking) (ops : List EditOp) :
    r.edited_indices ⊆ (apply_edit_ops r ops).edited_indices := by
  induction ops generalizing r with
  | nil => exact Finset.Subset.refl _
  | cons op ops ih =>
    exact (apply_edit_op_edited_subset r op).trans (ih (apply_edit_op r op))

/-- C2: starting from the record `initialize_edit_tracking` builds for a parse
result, after any finite sequence of relabel and re-parse operations (each
updating `current` and adding its index to `edited_indices`), re-running
`initialize_edit_tracking` on the same parse result produces a `current` list
element-wise equal to the edited record's untouched `original` list. -/
theorem reset_restores_original (file_data : FileData) (ops : List EditOp) :
    (initialize_edit_tracking file_data).current =
      (apply_edit_ops (initialize_edit_tracking file_data) ops).original := by
  rw [apply_edit_ops_original]
  rfl

/-- C3: every sequence of edit operations (type relabel; text replacement with
the coordinate overwrite done by the re-parse handler) leaves the record's
`original` list unchanged and never removes a member of `edited_indices`.
(`get_edit_summary` is an observer returning a string — it takes no part in
the state transition, so it cannot touch the record in this embedding.) -/
theorem edit_ops_preserve_original_and_grow_edited
    (r : EditTracking) (ops : List EditOp) :
    (apply_edit_ops r ops).original = r.original ∧
    r.edited_indices ⊆ (apply_edit_ops r ops).edited_indices :=
  ⟨apply_edit_ops_original r ops, apply_edit_ops_edited_subset r ops⟩

/-! ### C4 -/

theorem modify_at_length {α : Type} (l : List α) (n : ℕ) (f : α → α) :
    (modify_at l n f).length = l.length := by
  induction l generalizing n with
  | nil => rfl
  | cons x xs ih =>
    cases n with
    | zero => rfl
    | succ n => simp [modify_at, ih]

theorem modify_at_get?_self {α : Type} (l : List α) (n : ℕ) (f : α → α) :
    (modify_at l n f).get? n = (l.get? n).map f := by
  induction l generalizing n with
  | nil => rfl
  | cons x xs ih =>
    cases n with
    | zero => rfl
    | succ n => simpa [modify_at] using ih n

theorem modify_at_get?_ne {α : Type} (l : List α) (n m : ℕ) (f : α → α)
    (h : m ≠ n) : (modify_at l n f).get? m = l.get? m := by
  induction l generalizing n m with
  | nil => rfl
  | cons x xs ih =>
    cases n with
    | zero =>
      cases m with
      | zero => exact absurd rfl h
      | succ m => rfl
    | succ n =>
      cases m with
      | zero => rfl
      | succ m => simpa [modify_at] using ih n m (fun hh => h (by rw [hh]))

/-- C4: for an index outside `[0, len)` both `update_element_type` and
`replace_element_with_reparsed` return the element list unchanged (and, being
total functions, raise no error); for an index inside the range they change
exactly that element's `type` (resp. `text`) field, leaving its other fields,
every other element and the length untouched. -/
theorem update_and_replace_index_contract :
    (∀ (elements : List Element) (i : ℤ) (s : String),
      i < 0 ∨ (elements.length : ℤ) ≤ i →
      update_element_type elements i s = elements ∧
      replace_element_with_reparsed elements i s = elements) ∧
    (∀ (elements : List Element) (i : ℕ), i < elements.length → ∀ s : String,
      (update_element_type elements (i : ℤ) s).length = elements.length ∧
      (update_element_type elements (i : ℤ) s).get? i =
        (elements.get? i).map (fun e => { e with type := s }) ∧
      (∀ j : ℕ, j ≠ i →
        (update_element_type elements (i : ℤ) s).get? j = elements.get? j) ∧
      (replace_element_with_reparsed elements (i : ℤ) s).length =
        elements.length ∧
      (replace_element_with_reparsed elements (i : ℤ) s).get? i =
        (elements.get? i).map (fun e => { e with text := s }) ∧
      (∀ j : ℕ, j ≠ i →
        (replace_element_with_reparsed elements (i : ℤ) s).get? j =
          elements.get? j)) := by
  constructor
  · intro elements i s h
    have hcond : ¬ (0 ≤ i ∧ i < (elements.length : ℤ)) := by
      rcases h with h | h
      · exact fun hc => absurd hc.1 (not_le.mpr h)
      · exact fun hc => absurd hc.2 (not_lt.mpr h)
    exact ⟨by simp only [update_element_type, if_neg hcond],
      by simp only [replace_element_with_reparsed, if_neg hcond]⟩
  · intro elements i hi s
    have hcond : 0 ≤ (i : ℤ) ∧ (i : ℤ) < (elements.length : ℤ) :=
      ⟨Int.ofNat_nonneg i, by exact_mod_cast hi⟩
    have ht : ((i : ℤ)).toNat = i := by simp
    simp only [update_element_type, replace_element_with_reparsed,
      if_pos hcond, ht]
    exact ⟨modify_at_length _ _ _, modify_at_get?_self _ _ _,
      fun j hj => modify_at_get?_ne _ _ _ _ hj,
      modify_at_length _ _ _, modify_at_get?_self _ _ _,
      fun j hj => modify_at_get?_ne _ _ _ _ hj⟩

/-- Witness for `update_and_replace_index_contract`: the out-of-range part at
index `-1` of a one-element list, the in-range part at index `0`. -/
theorem update_and_replace_index_contract_witness :
    (update_element_type [⟨"Title", "t", none⟩] (-1) "Header" =
        [⟨"Title", "t", none⟩] ∧
      replace_element_with_reparsed [⟨"Title", "t", none⟩] (-1) "Header" =
        [⟨"Title", "t", none⟩]) ∧
    (update_element_type [⟨"Title", "t", none⟩] ((0 : ℕ) : ℤ) "Header").get? 0 =
      (([⟨"Title", "t", none⟩] : List Element).get? 0).map
        (fun e => { e with type := "Header" }) :=
  ⟨update_and_replace_index_contract.1 [⟨"Title", "t", none⟩] (-1) "Header"
      (Or.inl (by decide)),
    (update_and_replace_index_contract.2 [⟨"Title", "t", none⟩] 0 (by decide)
      "Header").2.1⟩

/-! ### C7 -/

theorem str_infix_helper (mid whole : String) (s t : List Char)
    (h : whole.data = s ++ mid.data ++ t) : List.IsInfix mid.data whole.data :=
  ⟨s, t, h.symm⟩

/-- C7: `get_edit_summary` on a freshly initialized record returns the
`"No edits made"` sentinel; after a single relabel of index `i` (through the
UI's relabel handler) from type `A` to a different type `B` with the text
untouched, the summary consists of exactly one line (`summary_parts` is a
singleton), that line is the whole output, it contains the ordinal `i + 1`,
and it contains the text `A ++ " → " ++ B`. -/
theorem get_edit_summary_single_relabel
    (file_data : FileData) (i : ℕ) (hi : i < file_data.elements.length)
    (B : String)
    (hAB : (file_data.elements.get ⟨i, hi⟩).type ≠ B) :
    get_edit_summary (initialize_edit_tracking file_data) =
      some "No edits made" ∧
    summary_parts
        (apply_edit_op (initialize_edit_tracking file_data)
          (EditOp.update_type i B))
        ((apply_edit_op (initialize_edit_tracking file_data)
          (EditOp.update_type i B)).edited_indices.sort (· ≤ ·)) =
      some ["Element " ++ toString (i + 1) ++ ": " ++
        ("Type: " ++ (file_data.elements.get ⟨i, hi⟩).type ++ " → " ++ B)] ∧
    get_edit_summary
        (apply_edit_op (initialize_edit_tracking file_data)
          (EditOp.update_type i B)) =
      some ("Element " ++ toString (i + 1) ++ ": " ++
        ("Type: " ++ (file_data.elements.get ⟨i, hi⟩).type ++ " → " ++ B)) ∧
    List.IsInfix ((file_data.elements.get ⟨i, hi⟩).type ++ " → " ++ B).data
      ("Element " ++ toString (i + 1) ++ ": " ++
        ("Type: " ++ (file_data.elements.get ⟨i, hi⟩).type ++ " → " ++ B)).data ∧
    List.IsInfix (toString (i + 1)).data
      ("Element " ++ toString (i + 1) ++ ": " ++
        ("Type: " ++ (file_data.elements.get ⟨i, hi⟩).type ++ " → " ++ B)).data := by
  have hget : file_data.elements.get? i =
      some (file_data.elements.get ⟨i, hi⟩) := List.get?_eq_get hi
  have hcond : 0 ≤ (i : ℤ) ∧ (i : ℤ) < (file_data.elements.length : ℤ) :=
    ⟨Int.ofNat_nonneg i, by exact_mod_cast hi⟩
  have htn : ((i : ℕ) : ℤ).toNat = i := by simp
  have hcur : (update_element_type file_data.elements (i : ℤ) B).get? i =
      some { file_data.elements.get ⟨i, hi⟩ with type := B } := by
    simp only [update_element_type, if_pos hcond, htn]
    rw [modify_at_get?_self, hget]
    rfl
  have hedit : (apply_edit_op (initialize_edit_tracking file_data)
      (EditOp.update_type i B)).edited_indices = {i} := by
    simp [apply_edit_op, initialize_edit_tracking]
  have hAB2 : ¬ file_data.elements[i].type = B := by simpa using hAB
  have hchanges : elem_changes (file_data.elements.get ⟨i, hi⟩)
      { file_data.elements.get ⟨i, hi⟩ with type := B } =
      ["Type: " ++ (file_data.elements.get ⟨i, hi⟩).type ++ " → " ++ B] := by
    simp [elem_changes, hAB2]
  have hparts : summary_parts
      (apply_edit_op (initialize_edit_tracking file_data)
        (EditOp.update_type i B)) [i] =
      some ["Element " ++ toString (i + 1) ++ ": " ++
        ("Type: " ++ (file_data.elements.get ⟨i, hi⟩).type ++ " → " ++ B)] := by
    have horig : (apply_edit_op (initialize_edit_tracking file_data)
        (EditOp.update_type i B)).original.get? i =
        some (file_data.elements.get ⟨i, hi⟩) := hget
    have hcur' : (apply_edit_op (initialize_edit_tracking file_data)
        (EditOp.update_type i B)).current.get? i =
        some { file_data.elements.get ⟨i, hi⟩ with type := B } := hcur
    simp only [summary_parts, horig, hcur', hchanges]
    rfl
  have hsort : (apply_edit_op (initialize_edit_tracking file_data)
      (EditOp.update_type i B)).edited_indices.sort (· ≤ ·) = [i] := by
    rw [hedit]
    exact Finset.sort_singleton _ i
  refine ⟨by simp [get_edit_summary, initialize_edit_tracking], ?_, ?_, ?_, ?_⟩
  · rw [hsort]
    exact hparts
  · rw [get_edit_summary,
      if_neg (by rw [hedit]; exact Finset.singleton_ne_empty i), hsort, hparts]
    rfl
  · apply str_infix_helper _ _
      (("Element " ++ toString (i + 1) ++ ": " ++ "Type: ").data) []
    simp [String.data_append, List.append_assoc]
  · apply str_infix_helper _ _ ("Element ".data)
      ((": " ++ ("Type: " ++ (file_data.elements.get ⟨i, hi⟩).type ++ " → " ++
        B)).data)
    simp [String.data_append, List.append_assoc]

/-- Witness for `get_edit_summary_single_relabel`: one `Title` element
relabelled to `Header`. -/
theorem get_edit_summary_single_relabel_witness :
    get_edit_summary
        (initialize_edit_tracking ⟨"f", "p", [⟨"Title", "t1", none⟩], ""⟩) =
      some "No edits made" ∧
    summary_parts
        (apply_edit_op
          (initialize_edit_tracking ⟨"f", "p", [⟨"Title", "t1", none⟩], ""⟩)
          (EditOp.update_type 0 "Header"))
        ((apply_edit_op
          (initialize_edit_tracking ⟨"f", "p", [⟨"Title", "t1", none⟩], ""⟩)
          (EditOp.update_type 0 "Header")).edited_indices.sort (· ≤ ·)) =
      some ["Element " ++ toString (0 + 1) ++ ": " ++
        ("Type: " ++ (([⟨"Title", "t1", none⟩] : List Element).get
          ⟨0, Nat.zero_lt_one⟩).type ++ " → " ++ "Header")] ∧
    get_edit_summary
        (apply_edit_op
          (initialize_edit_tracking ⟨"f", "p", [⟨"Title", "t1", none⟩], ""⟩)
          (EditOp.update_type 0 "Header")) =
      some ("Element " ++ toString (0 + 1) ++ ": " ++
        ("Type: " ++ (([⟨"Title", "t1", none⟩] : List Element).get
          ⟨0, Nat.zero_lt_one⟩).type ++ " → " ++ "Header")) ∧
    List.IsInfix ((([⟨"Title", "t1", none⟩] : List Element).get
        ⟨0, Nat.zero_lt_one⟩).type ++ " → " ++ "Header").data
      ("Element " ++ toString (0 + 1) ++ ": " ++
        ("Type: " ++ (([⟨"Title", "t1", none⟩] : List Element).get
          ⟨0, Nat.zero_lt_one⟩).type ++ " → " ++ "Header")).data ∧
    List.IsInfix (toString (0 + 1)).data
      ("Element " ++ toString (0 + 1) ++ ": " ++
        ("Type: " ++ (([⟨"Title", "t1", none⟩] : List Element).get
          ⟨0, Nat.zero_lt_one⟩).type ++ " → " ++ "Header")).data :=
  get_edit_summary_single_relabel ⟨"f", "p", [⟨"Title", "t1", none⟩], ""⟩ 0
    Nat.zero_lt_one "Header" (by decide)

/-! ### C9 -/

theorem side_text_loop_acc (sn : Bool) (es : List Element) : ∀ (idx : ℕ)
    (acc : List String),
    side_text_loop sn idx es acc = acc ++ side_text_loop sn idx es [] := by
  induction es with
  | nil => intro idx acc; simp [side_text_loop]
  | cons e es ih =>
    intro idx acc
    simp only [side_text_loop]
    rw [ih (idx + 1) (acc ++ [sbs_header sn idx e, e.text, sep_line]),
      ih (idx + 1) ([] ++ [sbs_header sn idx e, e.text, sep_line])]
    simp [List.append_assoc]

theorem side_text_loop_closed (sn : Bool) (es : List Element) : ∀ idx : ℕ,
    side_text_loop sn idx es [] = (es.enumFrom idx).flatMap
      (fun p => [sbs_header sn p.1 p.2, p.2.text, sep_line]) := by
  induction es with
  | nil => intro idx; rfl
  | cons e es ih =>
    intro idx
    rw [show side_text_loop sn idx (e :: es) [] =
      side_text_loop sn (idx + 1) es ([] ++ [sbs_header sn idx e, e.text,
        sep_line]) from rfl, side_text_loop_acc]
    simp [List.enumFrom, ih (idx + 1)]

theorem side_entries_get (sn : Bool) (es : List Element) : ∀ (idx k : ℕ)
    (hk : k < es.length),
    (((es.enumFrom idx).flatMap
        (fun p => [sbs_header sn p.1 p.2, p.2.text, sep_line])).get? (3 * k) =
      some (sbs_header sn (idx + k) (es.get ⟨k, hk⟩))) ∧
    (((es.enumFrom idx).flatMap
        (fun p => [sbs_header sn p.1 p.2, p.2.text, sep_line])).get?
          (3 * k + 1) = some ((es.get ⟨k, hk⟩).text)) ∧
    (((es.enumFrom idx).flatMap
        (fun p => [sbs_header sn p.1 p.2, p.2.text, sep_line])).get?
          (3 * k + 2) = some sep_line) := by
  induction es with
  | nil => intro idx k hk; exact absurd hk (by simp)
  | cons e es ih =>
    intro idx k hk
    cases k with
    | zero => simp [List.enumFrom, List.get?]
    | succ k =>
      have hk' : k < es.length := by simpa using hk
      have h3 : 3 * (k + 1) = (3 * k) + 3 := by ring
      have hrec := ih (idx + 1) k hk'
      simp only [List.enumFrom, List.flatMap_cons, List.cons_append, h3]
      refine ⟨?_, ?_, ?_⟩
      · rw [show 3 * k + 3 = ((3 * k) + 2) + 1 from by ring]
        simp only [List.get?_cons_succ, List.nil_append]
        rw [show (3 * k) + 1 + 1 = (3 * k) + 2 from by ring] at *
        have := hrec.1
        rw [show idx + 1 + k = idx + (k + 1) from by ring] at this
        simpa using this
      · rw [show 3 * k + 3 + 1 = ((3 * k) + 1) + 3 from by ring]
        simp only [List.get?_cons_succ, List.nil_append]
        simpa using hrec.2.1
      · rw [show 3 * k + 3 + 2 = ((3 * k) + 2) + 3 from by ring]
        simp only [List.get?_cons_succ, List.nil_append]
        simpa using hrec.2.2

theorem side_entries_length (sn : Bool) (es : List Element) : ∀ idx : ℕ,
    ((es.enumFrom idx).flatMap
      (fun p => [sbs_header sn p.1 p.2, p.2.text, sep_line])).length =
      3 * es.length := by
  induction es with
  | nil => intro idx; rfl
  | cons e es ih =>
    intro idx
    have hstep : ((e :: es).enumFrom idx).flatMap
        (fun p => [sbs_header sn p.1 p.2, p.2.text, sep_line]) =
        [sbs_header sn idx e, e.text, sep_line] ++
          (es.enumFrom (idx + 1)).flatMap
            (fun p => [sbs_header sn p.1 p.2, p.2.text, sep_line]) := rfl
    rw [hstep, List.length_append, ih (idx + 1)]
    simp only [List.length_cons, List.length_nil]
    ring

theorem drawn_boxes_eq_filter (es : List Element) : ∀ idx : ℕ,
    drawn_boxes idx es =
      (es.enumFrom idx).filter (fun p => p.2.coordinates.isSome) := by
  induction es with
  | nil => intro idx; rfl
  | cons e es ih =>
    intro idx
    cases hc : e.coordinates with
    | none =>
      simp [drawn_boxes, List.enumFrom, hc, List.filter_cons, ih (idx + 1)]
    | some cs =>
      simp [drawn_boxes, List.enumFrom, hc, List.filter_cons, ih (idx + 1)]

/-- C9: the formatted text of `create_side_by_side_view` contains one entry
per element, in list order: the `text_parts` list has length `3·len`, and for
the `k`-th element (0-based) it holds the ordinal/type header with ordinal
`k + 1` at position `3k`, the element's text at `3k + 1` and the fixed-width
separator at `3k + 2` — for every element, including those whose coordinates
are absent; the drawing loop, by contrast, keeps exactly the elements whose
coordinates are present. -/
theorem create_side_by_side_text_struct (show_numbers : Bool)
    (elements : List Element) :
    create_side_by_side_text show_numbers elements =
      String.intercalate "\n" (side_text_loop show_numbers 1 elements []) ∧
    (side_text_loop show_numbers 1 elements []).length = 3 * elements.length ∧
    (∀ k, ∀ hk : k < elements.length,
      (side_text_loop show_numbers 1 elements []).get? (3 * k) =
        some (sbs_header show_numbers (k + 1) (elements.get ⟨k, hk⟩)) ∧
      (side_text_loop show_numbers 1 elements []).get? (3 * k + 1) =
        some ((elements.get ⟨k, hk⟩).text) ∧
      (side_text_loop show_numbers 1 elements []).get? (3 * k + 2) =
        some sep_line) ∧
    drawn_boxes 1 elements =
      (elements.enumFrom 1).filter (fun p => p.2.coordinates.isSome) := by
  refine ⟨rfl, ?_, ?_, drawn_boxes_eq_filter elements 1⟩
  · rw [side_text_loop_closed]
    exact side_entries_length show_numbers elements 1
  · intro k hk
    rw [side_text_loop_closed]
    have h := side_entries_get show_numbers elements 1 k hk
    rw [show 1 + k = k + 1 from Nat.add_comm 1 k] at h
    exact h

/-- Witness for `create_side_by_side_text_struct`: two elements, the first
without coordinates, instantiated at `k = 0`. -/
theorem create_side_by_side_text_struct_witness :
    (side_text_loop true 1
        [⟨"Title", "t1", none⟩, ⟨"NarrativeText", "t2", some [(1, 2)]⟩]
        []).length =
      3 * ([⟨"Title", "t1", none⟩, ⟨"NarrativeText", "t2", some [(1, 2)]⟩] :
        List Element).length ∧
    (side_text_loop true 1
        [⟨"Title", "t1", none⟩, ⟨"NarrativeText", "t2", some [(1, 2)]⟩]
        []).get? (3 * 0) =
      some (sbs_header true (0 + 1)
        (([⟨"Title", "t1", none⟩, ⟨"NarrativeText", "t2", some [(1, 2)]⟩] :
          List Element).get ⟨0, Nat.zero_lt_two⟩)) ∧
    drawn_boxes 1
        [⟨"Title", "t1", none⟩, ⟨"NarrativeText", "t2", some [(1, 2)]⟩] =
      (([⟨"Title", "t1", none⟩, ⟨"NarrativeText", "t2", some [(1, 2)]⟩] :
        List Element).enumFrom 1).filter
          (fun p => p.2.coordinates.isSome) :=
  ⟨(create_side_by_side_text_struct true
      [⟨"Title", "t1", none⟩, ⟨"NarrativeText", "t2", some [(1, 2)]⟩]).2.1,
    ((create_side_by_side_text_struct true
      [⟨"Title", "t1", none⟩, ⟨"NarrativeText", "t2", some [(1, 2)]⟩]).2.2.1
        0 Nat.zero_lt_two).1,
    (create_side_by_side_text_struct true
      [⟨"Title", "t1", none⟩, ⟨"NarrativeText", "t2", some [(1, 2)]⟩]).2.2.2⟩

/-! ### C8 -/

/-- C8 counterexample: on a POSIX filesystem the four glob patterns are
case-sensitive, so the folder entry `a.TiFf` — whose extension is `.tiff`
under the spec's case-insensitive reading (`spec_tiff_ext_ci`) — is not
returned by `scan_data_folder`. -/
theorem scan_data_folder_case_counterexample :
    scan_data_folder "data" (some ["a.TiFf"]) = Except.ok [] ∧
    spec_tiff_ext_ci "a.TiFf" = true ∧
    "a.TiFf" ∉ ([] : List String) :=
  ⟨rfl, by decide, by simp⟩

/-- C8 (amended): `scan_data_folder` errors exactly when the folder does not
exist; on an existing folder it returns, sorted lexicographically, exactly
the entries matched by one of the four case-sensitive glob patterns `*.tiff`,
`*.tif`, `*.TIFF`, `*.TIF` (so a mixed-case extension such as `.TiFf` is not
matched), and the empty list — not an error — when no entry matches. -/
theorem scan_data_folder_spec :
    (∀ path : String, scan_data_folder path none =
      Except.error ("Folder not found: " ++ path)) ∧
    (∀ (path : String) (entries : List String),
      ∃ l, scan_data_folder path (some entries) = Except.ok l ∧
        List.Sorted (· ≤ ·) l ∧
        (∀ x, x ∈ l ↔ x ∈ entries ∧
          (glob_suffix_match ['.', 't', 'i', 'f', 'f'] x ||
            glob_suffix_match ['.', 't', 'i', 'f'] x ||
            glob_suffix_match ['.', 'T', 'I', 'F', 'F'] x ||
            glob_suffix_match ['.', 'T', 'I', 'F'] x) = true) ∧
        ((∀ x ∈ entries,
            glob_suffix_match ['.', 't', 'i', 'f', 'f'] x = false ∧
            glob_suffix_match ['.', 't', 'i', 'f'] x = false ∧
            glob_suffix_match ['.', 'T', 'I', 'F', 'F'] x = false ∧
            glob_suffix_match ['.', 'T', 'I', 'F'] x = false) → l = [])) := by
  refine ⟨fun path => rfl, fun path entries => ?_⟩
  have hiff : ∀ x,
      x ∈ ((entries.filter (glob_suffix_match ['.', 't', 'i', 'f', 'f']) ++
        entries.filter (glob_suffix_match ['.', 't', 'i', 'f']) ++
        entries.filter (glob_suffix_match ['.', 'T', 'I', 'F', 'F']) ++
        entries.filter (glob_suffix_match ['.', 'T', 'I', 'F'])).insertionSort
          (· ≤ ·)) ↔ x ∈ entries ∧
        (glob_suffix_match ['.', 't', 'i', 'f', 'f'] x ||
          glob_suffix_match ['.', 't', 'i', 'f'] x ||
          glob_suffix_match ['.', 'T', 'I', 'F', 'F'] x ||
          glob_suffix_match ['.', 'T', 'I', 'F'] x) = true := by
    intro x
    rw [List.Perm.mem_iff (List.perm_insertionSort _ _)]
    simp only [List.mem_append, List.mem_filter, Bool.or_eq_true]
    tauto
  refine ⟨_, rfl, List.sorted_insertionSort _ _, hiff, ?_⟩
  intro hnone
  refine List.eq_nil_iff_forall_not_mem.mpr (fun x hx => ?_)
  obtain ⟨hxe, hm⟩ := (hiff x).mp hx
  obtain ⟨h1, h2, h3, h4⟩ := hnone x hxe
  simp [h1, h2, h3, h4] at hm

/-! ### C10 -/

/-- C10: `adjust_coordinates` does not mutate its argument — in the
store-passing embedding the post-call contents of the caller's list equal the
input, the returned value is the pure function's value, and on a non-empty
input it is a newly constructed list of exactly the four corner points. -/
theorem adjust_coordinates_no_mutation
    (coordinates : List (ℚ × ℚ))
    (left_adjust right_adjust top_adjust bottom_adjust : ℤ)
    (image_width image_height : ℤ) (hne : coordinates ≠ []) :
    (adjust_coordinates_run coordinates left_adjust right_adjust top_adjust
        bottom_adjust image_width image_height).2 = coordinates ∧
    (adjust_coordinates_run coordinates left_adjust right_adjust top_adjust
        bottom_adjust image_width image_height).1 =
      adjust_coordinates coordinates left_adjust right_adjust top_adjust
        bottom_adjust image_width image_height ∧
    ∃ a b c d : ℚ,
      (adjust_coordinates_run coordinates left_adjust right_adjust top_adjust
        bottom_adjust image_width image_height).1 =
        some [(a, c), (b, c), (b, d), (a, d)] ∧
      ∀ res, (adjust_coordinates_run coordinates left_adjust right_adjust
          top_adjust bottom_adjust image_width image_height).1 = some res →
        res.length = 4 := by
  obtain ⟨mx, hmx⟩ : ∃ v, (coordinates.map Prod.fst).min? = some v := by
    cases coordinates with
    | nil => exact absurd rfl hne
    | cons p rest => exact ⟨_, rfl⟩
  obtain ⟨Mx, hMx⟩ : ∃ v, (coordinates.map Prod.fst).max? = some v := by
    cases coordinates with
    | nil => exact absurd rfl hne
    | cons p rest => exact ⟨_, rfl⟩
  obtain ⟨my, hmy⟩ : ∃ v, (coordinates.map Prod.snd).min? = some v := by
    cases coordinates with
    | nil => exact absurd rfl hne
    | cons p rest => exact ⟨_, rfl⟩
  obtain ⟨My, hMy⟩ : ∃ v, (coordinates.map Prod.snd).max? = some v := by
    cases coordinates with
    | nil => exact absurd rfl hne
    | cons p rest => exact ⟨_, rfl⟩
  have hrun : adjust_coordinates_run coordinates left_adjust right_adjust
      top_adjust bottom_adjust image_width image_height =
      (some [(max 0 (mx - (left_adjust : ℚ)), max 0 (my - (top_adjust : ℚ))),
            (min (image_width : ℚ) (Mx + (right_adjust : ℚ)),
              max 0 (my - (top_adjust : ℚ))),
            (min (image_width : ℚ) (Mx + (right_adjust : ℚ)),
              min (image_height : ℚ) (My + (bottom_adjust : ℚ))),
            (max 0 (mx - (left_adjust : ℚ)),
              min (image_height : ℚ) (My + (bottom_adjust : ℚ)))],
        coordinates) := by
    simp only [adjust_coordinates_run]
    rw [hmx, hMx, hmy, hMy]
  have hadj : adjust_coordinates coordinates left_adjust right_adjust
      top_adjust bottom_adjust image_width image_height =
      some [(max 0 (mx - (left_adjust : ℚ)), max 0 (my - (top_adjust : ℚ))),
            (min (image_width : ℚ) (Mx + (right_adjust : ℚ)),
              max 0 (my - (top_adjust : ℚ))),
            (min (image_width : ℚ) (Mx + (right_adjust : ℚ)),
              min (image_height : ℚ) (My + (bottom_adjust : ℚ))),
            (max 0 (mx - (left_adjust : ℚ)),
              min (image_height : ℚ) (My + (bottom_adjust : ℚ)))] := by
    simp only [adjust_coordinates]
    rw [hmx, hMx, hmy, hMy]
  refine ⟨by rw [hrun], by rw [hrun, hadj], _, _, _, _, by rw [hrun], ?_⟩
  intro res h
  rw [hrun] at h
  rw [← Option.some.inj h]
  rfl

/-- Witness for `adjust_coordinates_no_mutation` at the single point
`(100, 100)`, adjustments `(10, 10, 0, 0)`, image 400×300. -/
theorem adjust_coordinates_no_mutation_witness :
    (adjust_coordinates_run [((100 : ℚ), 100)] 10 10 0 0 400 300).2 =
      [((100 : ℚ), 100)] ∧
    (adjust_coordinates_run [((100 : ℚ), 100)] 10 10 0 0 400 300).1 =
      adjust_coordinates [((100 : ℚ), 100)] 10 10 0 0 400 300 ∧
    ∃ a b c d : ℚ,
      (adjust_coordinates_run [((100 : ℚ), 100)] 10 10 0 0 400 300).1 =
        some [(a, c), (b, c), (b, d), (a, d)] ∧
      ∀ res, (adjust_coordinates_run [((100 : ℚ), 100)] 10 10 0 0 400 300).1 =
          some res → res.length = 4 :=
  adjust_coordinates_no_mutation [((100 : ℚ), 100)] 10 10 0 0 400 300
    (List.cons_ne_nil _ _)
